import Mathlib

/-!
# Verification of the pyroteus adjoint drivers

A shallow embedding, in Lean 4, of the control flow and bookkeeping of
`pyroteus/adjoint.py`, `pyroteus/mesh_seq.py` and `pyroteus/interpolation.py`,
together with theorems settling the behavioural claims about checkpointing,
solution extraction, field-set validation, QoI discovery and the cross-mesh
projection pair.

Conventions used throughout:

* Python dictionaries keyed by field name are embedded as association lists
  `List (String × α)`; their key set is the list of first components.
* Python exceptions are embedded as `Except`/`Option` error values; the
  error enumeration `PyErr` names each distinct raise site by the message
  of the assertion (or the Python exception class) in the source.
* External collaborators (the per-segment solver, the Firedrake projection
  primitive, the tape) enter as explicit function parameters, so every
  theorem quantifies over all of their possible behaviours.
-/

namespace Pyroteus

/-! ## Checkpointing (`AdjointMeshSeq.get_checkpoints`, adjoint.py lines 79-118)

The driver state that `get_checkpoints` consumes: the number of
subintervals `N = len(self)`, the initial condition, the per-subinterval
solver (an external collaborator) and the cross-mesh projection used to
carry the end state of subinterval `i` into the discretisation of
subinterval `i+1`.  Checkpoint values are abstract (`α`). -/
structure CheckpointRun (α : Type) where
  N : Nat
  initial : α
  solver : Nat → α → α
  proj : α → Nat → α

/-- The forward loop of `AdjointMeshSeq.get_checkpoints`
(adjoint.py lines 103-112): starting from subinterval `i` with current
checkpoint `cur` (which is `checkpoints[i]`), run `k` more iterations;
each iteration calls the solver once, and appends the projected end state
as the next checkpoint only when `i < N - 1`.  Returns the checkpoint list
and the number of solver invocations. -/
def ckptLoop {α : Type} (r : CheckpointRun α) :
    Nat → Nat → α → List α → Nat → List α × Nat
  | _, 0, _, acc, calls => (acc, calls)
  | i, Nat.succ k, cur, acc, calls =>
    let sols := r.solver i cur
    if i < r.N - 1 then
      let next := r.proj sols (i + 1)
      ckptLoop r (i + 1) k next (acc ++ [next]) (calls + 1)
    else
      ckptLoop r (i + 1) k cur acc (calls + 1)

/-- `AdjointMeshSeq.get_checkpoints` (adjoint.py lines 96-118):
`checkpoints = [self.initial_condition]`; an early return when `N == 1`
and the final subinterval is not run; otherwise the forward loop over
`range(N if run_final_subinterval else N - 1)`.  The second component
counts solver invocations. -/
def getCheckpoints {α : Type} (r : CheckpointRun α) (runFinal : Bool) :
    List α × Nat :=
  if r.N = 1 ∧ runFinal = false then ([r.initial], 0)
  else ckptLoop r 0 (if runFinal then r.N else r.N - 1) r.initial [r.initial] 0

theorem ckptLoop_length {α : Type} (r : CheckpointRun α) :
    ∀ (k i : Nat) (cur : α) (acc : List α) (c : Nat),
      ((ckptLoop r i k cur acc c).1).length = acc.length + min k (r.N - 1 - i) := by
  intro k
  induction k with
  | zero => intro i cur acc c; simp [ckptLoop]
  | succ k ih =>
    intro i cur acc c
    by_cases h : i < r.N - 1
    · rw [ckptLoop, if_pos h]
      rw [ih]
      have h1 : r.N - 1 - i = (r.N - 1 - (i + 1)) + 1 := by omega
      simp only [List.length_append, List.length_cons, List.length_nil]
      omega
    · rw [ckptLoop, if_neg h]
      rw [ih]
      have h1 : r.N - 1 - i = 0 := by omega
      have h2 : r.N - 1 - (i + 1) = 0 := by omega
      simp [h1, h2]

/-- A concrete checkpoint run used for falsifying claims: two
subintervals, a counter state. -/
def ckptRunTwo : CheckpointRun Nat :=
  { N := 2
    initial := 0
    solver := fun _ x => x + 1
    proj := fun x _ => x }

/-- A concrete single-subinterval run. -/
def ckptRunOne : CheckpointRun Nat :=
  { N := 1
    initial := 5
    solver := fun _ x => x + 3
    proj := fun x _ => x }

/-- C1 counterexample: with two subintervals and `run_final_subinterval=True`,
`get_checkpoints` returns 2 checkpoints, not `num_segments + 1 = 3`: the
final-subinterval solve never appends a checkpoint
(adjoint.py line 108 guards the append by `i < N-1`). -/
theorem getCheckpoints_length_not_succ :
    ¬ ((getCheckpoints ckptRunTwo true).1.length = ckptRunTwo.N + 1) := by
  decide

/-- C1 (amended): for every run with at least one subinterval and either
value of `run_final_subinterval`, the checkpoint list returned by
`AdjointMeshSeq.get_checkpoints` has length exactly `num_segments`. -/
theorem getCheckpoints_length {α : Type} (r : CheckpointRun α)
    (runFinal : Bool) (hN : 1 ≤ r.N) :
    ((getCheckpoints r runFinal).1).length = r.N := by
  unfold getCheckpoints
  by_cases h : r.N = 1 ∧ runFinal = false
  · rw [if_pos h]
    simp [h.1]
  · rw [if_neg h]
    rw [ckptLoop_length]
    cases runFinal with
    | false =>
      have hN2 : 2 ≤ r.N := by
        rcases Nat.lt_or_ge r.N 2 with h2 | h2
        · exfalso; exact h ⟨by omega, rfl⟩
        · exact h2
      simp only [List.length_cons, List.length_nil, Bool.false_eq_true, if_false]
      omega
    | true =>
      simp only [List.length_cons, List.length_nil, if_true]
      omega

/-- Witness for `getCheckpoints_length` at a concrete input. -/
theorem getCheckpoints_length_witness :
    1 ≤ ckptRunTwo.N ∧ ((getCheckpoints ckptRunTwo true).1).length = ckptRunTwo.N :=
  ⟨by decide, getCheckpoints_length ckptRunTwo true (by decide)⟩

/-- C10: for a single-subinterval sequence, `get_checkpoints` with
`run_final_subinterval=False` takes the early return at adjoint.py lines
101-102: the result is the one-element list holding only the initial
condition, and the solver is invoked zero times. -/
theorem getCheckpoints_single_no_solve {α : Type} (r : CheckpointRun α)
    (hN : r.N = 1) :
    getCheckpoints r false = ([r.initial], 0) := by
  unfold getCheckpoints
  rw [if_pos ⟨hN, rfl⟩]

/-- Witness for `getCheckpoints_single_no_solve` at a concrete input. -/
theorem getCheckpoints_single_no_solve_witness :
    ckptRunOne.N = 1 ∧ getCheckpoints ckptRunOne false = ([ckptRunOne.initial], 0) :=
  ⟨by decide, getCheckpoints_single_no_solve ckptRunOne (by decide)⟩

/-! ## Solution extraction stride bookkeeping (adjoint.py lines 256-262)

`solve_adjoint` walks the recorded solve blocks of one subinterval at the
export stride: `solve_blocks[::stride]` selects the governing records, a
warning fires when `len(solve_blocks[::stride]) >= exports_per_subinterval`,
and `zip(range(exports_per_subinterval - 1), solve_blocks[::stride])` fills
at most `E - 1` exports. -/

/-- Helper for Python extended slicing: `everyNthAux s c l` skips the next
`c` elements of `l`, keeps the one after, then repeats with period `s`. -/
def everyNthAux {α : Type} (s : Nat) : Nat → List α → List α
  | _, [] => []
  | 0, x :: xs => x :: everyNthAux s (s - 1) xs
  | Nat.succ k, _ :: xs => everyNthAux s k xs

/-- Python extended slicing `l[::s]` for a positive stride: the elements at
indices `0, s, 2*s, ...`. -/
def everyNth {α : Type} (s : Nat) (l : List α) : List α :=
  everyNthAux s 0 l

/-- The governing records selected by `zip(range(E-1), solve_blocks[::stride])`
(adjoint.py line 262): the first `E - 1` elements of the strided slice. -/
def extractExports {α : Type} (E s : Nat) (blocks : List α) : List α :=
  (everyNth s blocks).take (E - 1)

/-- The `StrideOverrunWarning` condition of adjoint.py line 259:
`len(solve_blocks[::stride]) >= P.exports_per_subinterval[i]`. -/
def strideOverrun {α : Type} (E s : Nat) (blocks : List α) : Bool :=
  decide (E ≤ (everyNth s blocks).length)

theorem everyNthAux_length {α : Type} (s : Nat) (hs : 1 ≤ s) :
    ∀ (l : List α) (m c : Nat), c < s →
      l.length = m * s + c → (everyNthAux s c l).length = m := by
  intro l
  induction l with
  | nil =>
    intro m c hc hl
    simp only [List.length_nil] at hl
    have hm : m * s = 0 := by omega
    rcases Nat.mul_eq_zero.mp hm with h | h
    · subst h
      cases c with
      | zero => simp [everyNthAux]
      | succ k => omega
    · omega
  | cons x xs ih =>
    intro m c hc hl
    cases c with
    | zero =>
      cases m with
      | zero =>
        exfalso
        simp only [List.length_cons, Nat.zero_mul] at hl
        omega
      | succ m =>
        rw [everyNthAux]
        simp only [List.length_cons] at hl ⊢
        have key : (m + 1) * s = m * s + s := by ring
        have hxs : xs.length = m * s + (s - 1) := by omega
        rw [ih m (s - 1) (by omega) hxs]
    | succ k =>
      rw [everyNthAux]
      simp only [List.length_cons] at hl
      have hxs : xs.length = m * s + k := by omega
      rw [ih m k (by omega) hxs]

theorem everyNth_length_mul {α : Type} (s : Nat) (hs : 1 ≤ s)
    (m : Nat) (l : List α) (hl : l.length = m * s) :
    (everyNth s l).length = m :=
  everyNthAux_length s hs l m 0 (by omega) (by omega)

/-- C3: for stride `s ≥ 1` and `exports_per_subinterval = E ≥ 1`, a
subinterval whose solver produced exactly `(E-1)*s` solve blocks yields
exactly `E - 1` extracted exports and no `StrideOverrunWarning`; a
subinterval with `(E-1)*s + s = E*s` solve blocks raises the (non-fatal)
warning while the extraction loop still fills exactly `E - 1` exports. -/
theorem stride_bookkeeping {α : Type} (E s : Nat) (b₁ b₂ : List α)
    (hs : 1 ≤ s) (hE : 1 ≤ E)
    (h₁ : b₁.length = (E - 1) * s) (h₂ : b₂.length = E * s) :
    (extractExports E s b₁).length = E - 1 ∧ strideOverrun E s b₁ = false
    ∧ (extractExports E s b₂).length = E - 1 ∧ strideOverrun E s b₂ = true := by
  have g₁ : (everyNth s b₁).length = E - 1 := everyNth_length_mul s hs (E - 1) b₁ h₁
  have g₂ : (everyNth s b₂).length = E := everyNth_length_mul s hs E b₂ h₂
  refine ⟨?_, ?_, ?_, ?_⟩
  · simp [extractExports, List.length_take, g₁]
  · simp only [strideOverrun, g₁, decide_eq_false_iff_not]
    omega
  · simp only [extractExports, List.length_take, g₂]
    omega
  · simp only [strideOverrun, g₂, decide_eq_true_eq]
    omega

/-- Witness for `stride_bookkeeping`: `E = 3`, `s = 2`, solver traces of
lengths `4 = (3-1)*2` and `6 = 3*2`. -/
theorem stride_bookkeeping_witness :
    (1 ≤ 2 ∧ 1 ≤ 3 ∧ (List.range 4).length = (3 - 1) * 2
      ∧ (List.range 6).length = 3 * 2)
    ∧ ((extractExports 3 2 (List.range 4)).length = 3 - 1
      ∧ strideOverrun 3 2 (List.range 4) = false
      ∧ (extractExports 3 2 (List.range 6)).length = 3 - 1
      ∧ strideOverrun 3 2 (List.range 6) = true) :=
  ⟨⟨by decide, by decide, by decide, by decide⟩,
    stride_bookkeeping 3 2 (List.range 4) (List.range 6)
      (by decide) (by decide) (by decide) (by decide)⟩

/-! ## `AdjointMeshSeq.solve_adjoint` label bookkeeping (adjoint.py lines 120-327)

The model tracks, through the reverse sweep, exactly the data the claims
are about: which labels each field's slot of the solution archive holds,
which dictionary the local Python variable `sols` is bound to (the solver
output from line 206, or `solutions[field]` from line 257), the
`adjoint_next` assignments performed by the extraction loop, and the final
checkpoint-QoI consistency check of lines 323-326.  The per-field
assertions of lines 238-243 (at least one solve block, consistent
elements) are assumed to pass, as they do on every run the claims
consider; the extraction is modelled on the single-stage path
(`solves_per_timestep == 1`) — the multi-stage branch sits under the same
`if not steady` guard at line 272. -/

/-- The labels allocated for the solution archive (adjoint.py lines
172-176): `adjoint_next` is allocated unless `self.steady` was set, and
`adj_value` is added when `get_adj_values` is requested. -/
def allocLabels (steadyFlag getAdjValues : Bool) : List String :=
  ["forward", "forward_old", "adjoint"]
    ++ (if steadyFlag then [] else ["adjoint_next"])
    ++ (if getAdjValues then ["adj_value"] else [])

/-- What the Python local `sols` is currently bound to inside the reverse
loop: the solver output of line 206, or `solutions[field]` from line 257. -/
inductive SolsRef where
  | solverOutput : SolsRef
  | archiveOf : String → SolsRef
deriving DecidableEq, Repr

/-- The inputs of one `solve_adjoint` call: the declared fields, the
constructor flags, the time partition data for each subinterval, the shape
of the externally recorded tape (solve-block counts, lagged-dependency
resolution, presence of adjoint solutions) and the two QoI values. -/
structure AdjRun where
  fields : List String
  steadyFlag : Bool
  getAdjValues : Bool
  testCheckpointQoi : Bool
  numSub : Nat
  numBlocks : String → Nat → Nat
  hasLagged : String → Bool
  adjSolPresent : String → Nat → Nat → Bool
  exportsPer : Nat → Nat
  strideOf : Nat → Nat
  qoiType : String
  Jchk : Rat
  Jadj : Rat

/-- The mutable state threaded through the reverse sweep. -/
structure AdjState where
  archive : List (String × List String)
  outKeys : List String
  solsRef : SolsRef
  adjNextWrites : List (String × Nat × Nat)

/-- The labels currently present for `field` in the solution archive. -/
def labelsOf (archive : List (String × List String)) (f : String) : List String :=
  ((archive.find? (fun e => e.1 == f)).map Prod.snd).getD []

/-- `solutions[field].pop(label)`. -/
def popLabel (archive : List (String × List String)) (f lab : String) :
    List (String × List String) :=
  archive.map (fun e => if e.1 == f then (e.1, e.2.erase lab) else e)

/-- `label in sols` for the current binding of `sols`. -/
def solsHasLabel (st : AdjState) (lab : String) : Bool :=
  match st.solsRef with
  | SolsRef.solverOutput => st.outKeys.contains lab
  | SolsRef.archiveOf f => (labelsOf st.archive f).contains lab

/-- `sols.pop(label)` for the current binding of `sols`. -/
def solsPop (st : AdjState) (lab : String) : AdjState :=
  match st.solsRef with
  | SolsRef.solverOutput => { st with outKeys := st.outKeys.erase lab }
  | SolsRef.archiveOf f => { st with archive := popLabel st.archive f lab }

/-- The `adjoint_next` assignments performed by the extraction loop
(adjoint.py lines 262-288) for one field on one subinterval: the loop
`zip(range(exports_per_subinterval - 1), solve_blocks[::stride])` visits
`j < min (E-1) len(solve_blocks[::stride])`; under `if not steady`, export
`j` is assigned from solve block `j*stride + 1` when that block exists and
carries an adjoint solution, or — when `j*stride + 1` is exactly the block
count — from the following subinterval's seed when one exists (line 283).
The `IndexError` raise of line 288 cannot fire for these `j`. -/
def adjNextWritesFor (r : AdjRun) (f : String) (i : Nat) (steady : Bool) :
    List (String × Nat × Nat) :=
  let nsb := r.numBlocks f i
  let stride := r.strideOf i
  let numGov := (everyNth stride (List.range nsb)).length
  let bound := min (r.exportsPer i - 1) numGov
  (List.range bound).filterMap (fun j =>
    if steady then none
    else if j * stride + 1 < nsb then
      (if r.adjSolPresent f i (j * stride + 1) then some (f, i, j) else none)
    else if j * stride + 1 = nsb then
      (if i + 1 < r.numSub then some (f, i, j) else none)
    else none)

/-- One iteration of `for field, fs in function_spaces.items():`
(adjoint.py lines 233-302), restricted to the tracked bookkeeping:

* lines 244-249: `forward_old` is popped from `solutions[field]` when the
  lagged-dependency lookup returns `None`;
* line 252: `steady = self.steady or (num_subintervals == 1 and
  num_solve_blocks == 1)`;
* lines 253-254: `if steady and 'adjoint_next' in sols: sols.pop(...)` —
  acting on whatever `sols` is currently bound to;
* line 257: `sols = solutions[field]`;
* lines 262-288: the extraction loop's `adjoint_next` assignments. -/
def fieldStep (r : AdjRun) (i : Nat) (st : AdjState) (f : String) : AdjState :=
  let st₁ : AdjState :=
    if !(r.hasLagged f) && (labelsOf st.archive f).contains "forward_old" then
      { st with archive := popLabel st.archive f "forward_old" }
    else st
  let steady : Bool :=
    r.steadyFlag || (decide (r.numSub = 1) && decide (r.numBlocks f i = 1))
  let st₂ := if steady && solsHasLabel st₁ "adjoint_next" then
      solsPop st₁ "adjoint_next"
    else st₁
  let st₃ := { st₂ with solsRef := SolsRef.archiveOf f }
  { st₃ with adjNextWrites := st₃.adjNextWrites ++ adjNextWritesFor r f i steady }

/-- One iteration of the reverse loop `for i in reversed(range(num_subintervals))`
(adjoint.py lines 203-321): line 206 rebinds `sols` to the solver output,
whose keys are the declared fields, then the field loop runs. -/
def subStep (r : AdjRun) (st : AdjState) (i : Nat) : AdjState :=
  let st' := { st with solsRef := SolsRef.solverOutput, outKeys := r.fields }
  r.fields.foldl (fieldStep r i) st'

/-- The archive as allocated at adjoint.py lines 177-186. -/
def initAdjState (r : AdjRun) : AdjState :=
  { archive := r.fields.map (fun f => (f, allocLabels r.steadyFlag r.getAdjValues))
    outKeys := []
    solsRef := SolsRef.solverOutput
    adjNextWrites := [] }

/-- `numpy.isclose` with its default tolerances
(`rtol = 1e-5`, `atol = 1e-8`), over exact rationals. -/
def npIsClose (a b : Rat) : Bool :=
  decide (|a - b| ≤ 1 / 100000000 + |b| / 100000)

/-- What `solve_adjoint` hands back (for the claims considered): the
archive's label keys per field, the `adjoint_next` population events, and
whether the final checkpoint-QoI consistency assertion of lines 323-326
fails. -/
structure AdjResult where
  archive : List (String × List String)
  adjNextWrites : List (String × Nat × Nat)
  consistencyFailure : Bool

/-- The reverse sweep of `AdjointMeshSeq.solve_adjoint` followed by the
final cross-check: `if self.qoi_type == 'time_integrated' and
test_checkpoint_qoi: assert np.isclose(J_chk, self.J)`. -/
def solveAdjointModel (r : AdjRun) : AdjResult :=
  let final := ((List.range r.numSub).reverse).foldl (subStep r) (initAdjState r)
  { archive := final.archive
    adjNextWrites := final.adjNextWrites
    consistencyFailure :=
      decide (r.qoiType = "time_integrated") && r.testCheckpointQoi
        && !(npIsClose r.Jchk r.Jadj) }

/-- The single-segment, single-record, single-field problem of claim C2,
with the `steady` constructor flag left at its default `False`. -/
def steadyDetectedRun : AdjRun :=
  { fields := ["u"]
    steadyFlag := false
    getAdjValues := false
    testCheckpointQoi := false
    numSub := 1
    numBlocks := fun _ _ => 1
    hasLagged := fun _ => true
    adjSolPresent := fun _ _ _ => true
    exportsPer := fun _ => 2
    strideOf := fun _ => 1
    qoiType := "end_time"
    Jchk := 0
    Jadj := 0 }

/-- C2: on the steady-detected single-segment, single-record problem the
extraction loop indeed never populates `adjoint_next`, but the archive
returned by `solve_adjoint` still CONTAINS the `adjoint_next` key for the
field: the pop at adjoint.py lines 253-254 reads the stale `sols` binding
(the solver output of line 206, keyed by field names) instead of
`solutions[field]`, which is only bound to `sols` at line 257. -/
theorem steady_suppression_key_remains :
    (labelsOf (solveAdjointModel steadyDetectedRun).archive "u").contains
        "adjoint_next" = true
    ∧ (solveAdjointModel steadyDetectedRun).adjNextWrites = [] := by
  constructor
  · rfl
  · rfl

/-- C4: the checkpoint-QoI consistency assertion fails exactly when the
QoI is time-integrated, the cross-check was explicitly requested via
`test_checkpoint_qoi`, and the two QoI values are not `np.isclose`; in
particular it is never triggered without the request. -/
theorem qoi_cross_check_trigger (r : AdjRun) :
    (solveAdjointModel r).consistencyFailure = true
      ↔ (r.qoiType = "time_integrated" ∧ r.testCheckpointQoi = true
          ∧ npIsClose r.Jchk r.Jadj = false) := by
  simp [solveAdjointModel, Bool.and_eq_true, decide_eq_true_eq,
    Bool.not_eq_true', and_assoc]

/-! ## Field-set validation during checkpointing

`AdjointMeshSeq.get_checkpoints` (adjoint.py lines 103-112) validates each
solver return against the declared fields with `set(...).issubset(...)`;
the base `MeshSeq.get_checkpoints` (mesh_seq.py lines 200-220) attempts
the same checks but calls the nonexistent set method `issubclass`.
Solver returns are embedded as association lists, so the leading
`assert issubclass(sols.__class__, dict)` always passes. -/

/-- The distinct raise sites of the two validation paths and of QoI
discovery, named by Python exception class / assertion message. -/
inductive PyErr where
  | missingFields : PyErr
  | extraFields : PyErr
  | attributeError : PyErr
  | valueError : PyErr
deriving DecidableEq, Repr

/-- `sols.keys()` of an embedded solver return. -/
def fieldKeys {α : Type} (sols : List (String × α)) : List String :=
  sols.map Prod.fst

/-- The two assertions of adjoint.py lines 106-107, in source order:
`set(self.fields).issubset(set(sols.keys()))` ("missing fields from
solver") and then `set(sols.keys()).issubset(set(self.fields))` ("more
solver outputs than fields"). -/
def validateSolution (fields ks : List String) : Option PyErr :=
  if !(fields.all (fun f => ks.contains f)) then some PyErr.missingFields
  else if !(ks.all (fun g => fields.contains g)) then some PyErr.extraFields
  else none

/-- A checkpoint run whose solver returns are field-keyed dictionaries, so
that the field-set validation can be expressed. -/
structure VCheckpointRun (α : Type) where
  N : Nat
  fields : List String
  initial : List (String × α)
  solver : Nat → List (String × α) → List (String × α)
  proj : α → Nat → α

/-- The forward loop of `AdjointMeshSeq.get_checkpoints` with validation
(adjoint.py lines 103-112).  On a validation failure the raised error is
returned together with the checkpoints accumulated so far — in particular
no checkpoint derived from the offending solution.  On success the end
state is projected and appended when `i < N - 1`. -/
def vCkptLoop {α : Type} (r : VCheckpointRun α) :
    Nat → Nat → List (String × α) → List (List (String × α)) →
      Except (PyErr × List (List (String × α))) (List (List (String × α)))
  | _, 0, _, acc => Except.ok acc
  | i, Nat.succ k, cur, acc =>
    let sols := r.solver i cur
    match validateSolution r.fields (fieldKeys sols) with
    | some e => Except.error (e, acc)
    | none =>
      if i < r.N - 1 then
        let next := r.fields.filterMap
          (fun f => (sols.lookup f).map (fun v => (f, r.proj v (i + 1))))
        vCkptLoop r (i + 1) k next (acc ++ [next])
      else vCkptLoop r (i + 1) k cur acc

/-- `AdjointMeshSeq.get_checkpoints` with field-set validation. -/
def getCheckpointsValidated {α : Type} (r : VCheckpointRun α) (runFinal : Bool) :
    Except (PyErr × List (List (String × α))) (List (List (String × α))) :=
  if r.N = 1 ∧ runFinal = false then Except.ok [r.initial]
  else vCkptLoop r 0 (if runFinal then r.N else r.N - 1) r.initial [r.initial]

/-- On a field-set mismatch, `validateSolution` reports `missingFields`
when some declared field is absent from the solver keys, and
`extraFields` otherwise. -/
theorem validateSolution_mismatch (fields ks : List String)
    (hmis : ((fields.all (fun f => ks.contains f))
        && (ks.all (fun g => fields.contains g))) = false) :
    validateSolution fields ks
      = some (if fields.all (fun f => ks.contains f)
              then PyErr.extraFields else PyErr.missingFields) := by
  unfold validateSolution
  cases hsub : fields.all (fun f => ks.contains f) with
  | false => simp
  | true =>
    rw [hsub, Bool.true_and] at hmis
    rw [hmis]
    rfl

/-- C7 (amended, the `AdjointMeshSeq` path): whenever the solver return at
the current subinterval has a key set that is not exactly the declared
field set, the loop raises at that point, the error identifies whether
fields are missing (some declared field absent) or extra (all declared
fields present, but others too), and the accumulated checkpoint list is
returned untouched: no checkpoint is produced from that solution. -/
theorem checkpoint_field_validation {α : Type} (r : VCheckpointRun α)
    (i k : Nat) (cur : List (String × α)) (acc : List (List (String × α)))
    (hmis : ((r.fields.all (fun f => (fieldKeys (r.solver i cur)).contains f))
        && ((fieldKeys (r.solver i cur)).all (fun g => r.fields.contains g)))
      = false) :
    vCkptLoop r i (k + 1) cur acc
      = Except.error
          ((if r.fields.all (fun f => (fieldKeys (r.solver i cur)).contains f)
            then PyErr.extraFields else PyErr.missingFields), acc) := by
  rw [vCkptLoop]
  rw [validateSolution_mismatch r.fields (fieldKeys (r.solver i cur)) hmis]

/-- A run whose solver omits the declared field `v`. -/
def vRunMissing : VCheckpointRun Nat :=
  { N := 2
    fields := ["u", "v"]
    initial := [("u", 0), ("v", 0)]
    solver := fun _ _ => [("u", 1)]
    proj := fun x _ => x }

/-- Witness for `checkpoint_field_validation`: the missing-field case at a
concrete run. -/
theorem checkpoint_field_validation_witness :
    (((vRunMissing.fields.all
        (fun f => (fieldKeys (vRunMissing.solver 0 vRunMissing.initial)).contains f))
      && ((fieldKeys (vRunMissing.solver 0 vRunMissing.initial)).all
        (fun g => vRunMissing.fields.contains g))) = false)
    ∧ vCkptLoop vRunMissing 0 1 vRunMissing.initial [vRunMissing.initial]
        = Except.error (PyErr.missingFields, [vRunMissing.initial]) :=
  ⟨by decide,
    by simpa using
      checkpoint_field_validation vRunMissing 0 0 vRunMissing.initial
        [vRunMissing.initial] (by decide)⟩

/-- The attribute names of Python 3 `set` objects (its public methods);
`issubclass` — the name actually called at mesh_seq.py lines 207 and
210 — is not among them, so Python raises `AttributeError` there before
any subset test runs. -/
def pySetAttrs : List String :=
  ["add", "clear", "copy", "difference", "difference_update", "discard",
   "intersection", "intersection_update", "isdisjoint", "issubset",
   "issuperset", "pop", "remove", "symmetric_difference",
   "symmetric_difference_update", "union", "update"]

/-- The validation of `MeshSeq.get_checkpoints` (mesh_seq.py lines
206-212): `assert issubclass(sols.__class__, dict)` passes (solver
returns are dictionaries), then each of the two intended subset
assertions first evaluates `set(...).issubclass(...)`, whose attribute
lookup fails. -/
def baseValidateSolution (fields ks : List String) : Option PyErr :=
  if !(pySetAttrs.contains "issubclass") then some PyErr.attributeError
  else if !(fields.all (fun f => ks.contains f)) then some PyErr.missingFields
  else if !(pySetAttrs.contains "issubclass") then some PyErr.attributeError
  else if !(ks.all (fun g => fields.contains g)) then some PyErr.extraFields
  else none

/-- The loop of `MeshSeq.get_checkpoints` (mesh_seq.py lines 202-219): it
runs over all `N` subintervals (there is no `run_final_subinterval`
option in the base class) and appends projected checkpoints while
`i < N - 1`. -/
def baseCkptLoop {α : Type} (r : VCheckpointRun α) :
    Nat → Nat → List (String × α) → List (List (String × α)) →
      Except (PyErr × List (List (String × α))) (List (List (String × α)))
  | _, 0, _, acc => Except.ok acc
  | i, Nat.succ k, cur, acc =>
    let sols := r.solver i cur
    match baseValidateSolution r.fields (fieldKeys sols) with
    | some e => Except.error (e, acc)
    | none =>
      if i < r.N - 1 then
        let next := r.fields.filterMap
          (fun f => (sols.lookup f).map (fun v => (f, r.proj v (i + 1))))
        baseCkptLoop r (i + 1) k next (acc ++ [next])
      else baseCkptLoop r (i + 1) k cur acc

/-- `MeshSeq.get_checkpoints` (mesh_seq.py lines 189-220). -/
def baseGetCheckpoints {α : Type} (r : VCheckpointRun α) :
    Except (PyErr × List (List (String × α))) (List (List (String × α))) :=
  baseCkptLoop r 0 r.N r.initial [r.initial]

/-- C8: every call to the base `MeshSeq.get_checkpoints` that executes at
least one segment solve raises `AttributeError` directly after the first
solve, whatever dictionary the solver returned, and the validation never
reaches the missing-fields / extra-fields outcomes for any field sets. -/
theorem base_checkpoints_attribute_error {α : Type} (r : VCheckpointRun α)
    (fields ks : List String) (hN : 1 ≤ r.N) :
    baseGetCheckpoints r = Except.error (PyErr.attributeError, [r.initial])
    ∧ baseValidateSolution fields ks = some PyErr.attributeError := by
  have hv : ∀ fs kk : List String,
      baseValidateSolution fs kk = some PyErr.attributeError := by
    intro fs kk
    rfl
  constructor
  · obtain ⟨k, hk⟩ : ∃ k, r.N = k + 1 := ⟨r.N - 1, by omega⟩
    unfold baseGetCheckpoints
    rw [hk, baseCkptLoop]
    simp [hv]
  · exact hv fields ks

/-- A concrete single-subinterval run on which the base class is called
and whose solver returns an extra, undeclared field. -/
def baseRunExtra : VCheckpointRun Nat :=
  { N := 1
    fields := ["u"]
    initial := [("u", 0)]
    solver := fun _ _ => [("u", 1), ("w", 2)]
    proj := fun x _ => x }

/-- Witness for `base_checkpoints_attribute_error` at a concrete run. -/
theorem base_checkpoints_attribute_error_witness :
    1 ≤ baseRunExtra.N
    ∧ baseGetCheckpoints baseRunExtra
        = Except.error (PyErr.attributeError, [baseRunExtra.initial])
    ∧ baseValidateSolution ["u"] ["u", "w"] = some PyErr.attributeError :=
  ⟨by decide,
    (base_checkpoints_attribute_error baseRunExtra ["u"] ["u", "w"] (by decide)).1,
    (base_checkpoints_attribute_error baseRunExtra ["u"] ["u", "w"] (by decide)).2⟩

/-- C7 counterexample: on a forward checkpoint pass through the base
`MeshSeq.get_checkpoints` whose solver returns a field set that differs
from the declared fields (an extra field `w`), the raised error is an
`AttributeError` — not a validation error identifying missing or extra
fields — contradicting the claim for this cited code path. -/
theorem base_validation_never_identifies :
    baseGetCheckpoints baseRunExtra
      = Except.error (PyErr.attributeError, [[("u", 0)]])
    ∧ PyErr.attributeError ≠ PyErr.missingFields
    ∧ PyErr.attributeError ≠ PyErr.extraFields := by
  refine ⟨rfl, by decide, by decide⟩

/-! ## QoI discovery (`AdjointMeshSeq.get_qoi`, adjoint.py lines 52-77)

The declared arity of the user QoI function is
`co_argcount - len(__defaults__)`; arity 1 selects the end-time
interpretation, arity 2 the time-integrated one, anything else raises a
`ValueError`.  `get_qoi` is invoked from `get_checkpoints` (line 116)
after the forward loop and from `solve_adjoint` (line 211) after the last
subinterval's replay, so discovery happens after solves have run. -/

/-- The signature data `get_qoi` inspects on the user QoI function. -/
structure PyQoiSig where
  argcount : Nat
  numDefaults : Nat
deriving DecidableEq, Repr

/-- `num_args = qoi.__code__.co_argcount - len(qoi.__defaults__ or ())`
(adjoint.py lines 56-57). -/
def qoiNumArgs (sig : PyQoiSig) : Nat := sig.argcount - sig.numDefaults

/-- The arity dispatch of adjoint.py lines 58-63. -/
def getQoiType (sig : PyQoiSig) : Except PyErr String :=
  if qoiNumArgs sig = 1 then Except.ok "end_time"
  else if qoiNumArgs sig = 2 then Except.ok "time_integrated"
  else Except.error PyErr.valueError

/-- The observable events of one `AdjointMeshSeq.get_checkpoints` call. -/
inductive CkptEvent where
  | solve : Nat → CkptEvent
  | qoiDiscovery : CkptEvent
deriving DecidableEq, Repr

/-- The event trace of `AdjointMeshSeq.get_checkpoints` (adjoint.py lines
96-118): the early return for a single subinterval without the final
solve, otherwise one solve per executed subinterval followed — only when
the QoI type is `end_time` — by QoI discovery via `get_qoi`, which
re-derives the type from the arity or raises. -/
def getCheckpointsTrace (N : Nat) (runFinal : Bool) (qoiType : String)
    (sig : PyQoiSig) : List CkptEvent × Except PyErr String :=
  if N = 1 ∧ runFinal = false then ([], Except.ok qoiType)
  else
    let solves := (List.range (if runFinal then N else N - 1)).map CkptEvent.solve
    if qoiType = "end_time" then
      match getQoiType sig with
      | Except.ok t => (solves ++ [CkptEvent.qoiDiscovery], Except.ok t)
      | Except.error e => (solves ++ [CkptEvent.qoiDiscovery], Except.error e)
    else (solves, Except.ok qoiType)

/-- C9 counterexample: a QoI of declared arity 3, on a one-subinterval
end-time problem with the final subinterval run, raises `ValueError` at
discovery — but the trace shows a solve was already attempted before the
discovery, so the error is not raised "before any solve is attempted". -/
theorem qoi_arity_error_after_solve :
    (getCheckpointsTrace 1 true "end_time" ⟨3, 0⟩).2 = Except.error PyErr.valueError
    ∧ CkptEvent.solve 0 ∈ (getCheckpointsTrace 1 true "end_time" ⟨3, 0⟩).1 :=
  ⟨rfl, by decide⟩

/-- C9 (amended): arity 1 selects the end-time interpretation, arity 2
the time-integrated one, and any other arity raises `ValueError` — at the
moment `get_qoi` discovers the QoI function (which, in the drivers,
happens after forward solves, not before). -/
theorem qoi_arity_discovery (sig : PyQoiSig) :
    (qoiNumArgs sig = 1 → getQoiType sig = Except.ok "end_time")
    ∧ (qoiNumArgs sig = 2 → getQoiType sig = Except.ok "time_integrated")
    ∧ (qoiNumArgs sig ≠ 1 → qoiNumArgs sig ≠ 2 →
        getQoiType sig = Except.error PyErr.valueError) := by
  refine ⟨fun h1 => ?_, fun h2 => ?_, fun h1 h2 => ?_⟩
  · simp [getQoiType, h1]
  · simp [getQoiType, h2]
  · simp [getQoiType, h1, h2]

/-- Witness for `qoi_arity_discovery` at concrete signatures. -/
theorem qoi_arity_discovery_witness :
    (qoiNumArgs ⟨2, 0⟩ = 2 ∧ getQoiType ⟨2, 0⟩ = Except.ok "time_integrated")
    ∧ (qoiNumArgs ⟨4, 1⟩ ≠ 1 ∧ qoiNumArgs ⟨4, 1⟩ ≠ 2
        ∧ getQoiType ⟨4, 1⟩ = Except.error PyErr.valueError) :=
  ⟨⟨by decide, (qoi_arity_discovery ⟨2, 0⟩).2.1 (by decide)⟩,
    ⟨by decide, by decide,
      (qoi_arity_discovery ⟨4, 1⟩).2.2 (by decide) (by decide)⟩⟩

/-! ## Cross-mesh projection, structural behaviour (interpolation.py)

`mesh2mesh_project` (lines 8-32) and `mesh2mesh_project_adjoint` (lines
35-85) branch on whether the two function spaces coincide (`==`) and on
whether the target/source space is mixed (`hasattr(..., 'num_sub_spaces')`).
Function spaces are embedded as primal spaces (identified by a number) or
mixed spaces over primal components, which is the shape Firedrake's
`split()` exposes; the per-component projection primitive (Firedrake's
`project` on the forward side, the mass-matrix solve of lines 69-83 on
the adjoint side) is an explicit function parameter. -/

/-- A function space: primal, or mixed with primal components. -/
inductive FuncSpace where
  | primal : Nat → FuncSpace
  | mixedSpace : List Nat → FuncSpace
deriving DecidableEq, Repr

/-- A Firedrake function value: a function on a primal space with an
abstract dof payload, or a mixed function whose `split()` components are
(space, payload) pairs. -/
inductive FdFun where
  | prim : Nat → Int → FdFun
  | mix : List (Nat × Int) → FdFun
deriving DecidableEq, Repr

/-- `f.function_space()`. -/
def FdFun.spaceOf : FdFun → FuncSpace
  | FdFun.prim s _ => FuncSpace.primal s
  | FdFun.mix comps => FuncSpace.mixedSpace (comps.map Prod.fst)

/-- `space.num_sub_spaces()` behind `hasattr`; `none` when the attribute
is absent (a primal space). -/
def numSubSpaces : FuncSpace → Option Nat
  | FuncSpace.primal _ => none
  | FuncSpace.mixedSpace subs => some subs.length

/-- `mesh2mesh_project` (interpolation.py lines 8-32), with `adjoint=False`:
identity when the spaces coincide; for a mixed target, component-wise
application of the primitive `pp` over `zip(source.split(), target.split())`
after asserting both spaces are mixed with equal component counts; for a
primal target, the plain projection primitive.  `none` embeds an
`AssertionError` (and the unchecked Firedrake failure on projecting a
mixed function into a primal space). -/
def mesh2mesh_project (pp : Nat → Int → Nat → Int) (source : FdFun)
    (targetSpace : FuncSpace) : Option FdFun :=
  if source.spaceOf = targetSpace then some source
  else
    match targetSpace, source with
    | FuncSpace.mixedSpace tsubs, FdFun.mix comps =>
      if comps.length = tsubs.length then
        some (FdFun.mix (List.zipWith (fun c t => (t, pp c.1 c.2 t)) comps tsubs))
      else none
    | FuncSpace.mixedSpace _, FdFun.prim _ _ => none
    | FuncSpace.primal t, FdFun.prim s d => some (FdFun.prim t (pp s d t))
    | FuncSpace.primal _, FdFun.mix _ => none

/-- `mesh2mesh_project_adjoint` (interpolation.py lines 35-85): identity
when the spaces coincide; otherwise the per-component transposed
mass-matrix solve `ap` is applied over the zipped component lists (a
single-component zip when the spaces are not mixed). -/
def mesh2mesh_project_adjoint (ap : Nat → Int → Nat → Int) (targetB : FdFun)
    (sourceSpace : FuncSpace) : Option FdFun :=
  if sourceSpace = targetB.spaceOf then some targetB
  else
    match sourceSpace, targetB with
    | FuncSpace.mixedSpace ssubs, FdFun.mix comps =>
      if comps.length = ssubs.length then
        some (FdFun.mix (List.zipWith (fun c s => (s, ap c.1 c.2 s)) comps ssubs))
      else none
    | FuncSpace.mixedSpace _, FdFun.prim _ _ => none
    | FuncSpace.primal s, FdFun.prim t d => some (FdFun.prim s (ap t d s))
    | FuncSpace.primal _, FdFun.mix _ => none

/-- C6: `mesh2mesh_project` returns its source unchanged whenever the
source and target function spaces coincide; on a mixed target with the
same number of sub-components as the (mixed) source it applies the
projection primitive component-wise; and `mesh2mesh_project_adjoint`
likewise returns its seed unchanged when the spaces coincide. -/
theorem project_identity_and_componentwise
    (pp ap : Nat → Int → Nat → Int) (source tb : FdFun)
    (tgt ssp : FuncSpace) (comps : List (Nat × Int)) (tsubs : List Nat) :
    (source.spaceOf = tgt → mesh2mesh_project pp source tgt = some source)
    ∧ (ssp = tb.spaceOf → mesh2mesh_project_adjoint ap tb ssp = some tb)
    ∧ ((FdFun.mix comps).spaceOf ≠ FuncSpace.mixedSpace tsubs →
        comps.length = tsubs.length →
        mesh2mesh_project pp (FdFun.mix comps) (FuncSpace.mixedSpace tsubs)
          = some (FdFun.mix
              (List.zipWith (fun c t => (t, pp c.1 c.2 t)) comps tsubs))) := by
  refine ⟨fun h => ?_, fun h => ?_, fun hne hlen => ?_⟩
  · unfold mesh2mesh_project
    rw [if_pos h]
  · unfold mesh2mesh_project_adjoint
    rw [if_pos h]
  · unfold mesh2mesh_project
    rw [if_neg hne]
    simp [hlen]

/-- Witness for `project_identity_and_componentwise`: a primal function
projected into its own space, a primal seed pulled back into its own
space, and a two-component mixed function into a different mixed space. -/
theorem project_identity_and_componentwise_witness :
    ((FdFun.prim 0 7).spaceOf = FuncSpace.primal 0
      ∧ mesh2mesh_project (fun _ d _ => d) (FdFun.prim 0 7) (FuncSpace.primal 0)
          = some (FdFun.prim 0 7))
    ∧ (FuncSpace.primal 1 = (FdFun.prim 1 4).spaceOf
      ∧ mesh2mesh_project_adjoint (fun _ d _ => d) (FdFun.prim 1 4)
          (FuncSpace.primal 1) = some (FdFun.prim 1 4))
    ∧ ((FdFun.mix [(0, 1), (1, 2)]).spaceOf ≠ FuncSpace.mixedSpace [2, 3]
      ∧ [(0, 1), (1, 2)].length = [2, 3].length
      ∧ mesh2mesh_project (fun _ d _ => d + 10) (FdFun.mix [(0, 1), (1, 2)])
          (FuncSpace.mixedSpace [2, 3])
          = some (FdFun.mix [(2, 11), (3, 12)])) :=
  ⟨⟨by decide,
      (project_identity_and_componentwise (fun _ d _ => d) (fun _ d _ => d)
        (FdFun.prim 0 7) (FdFun.prim 1 4) (FuncSpace.primal 0)
        (FuncSpace.primal 1) [] []).1 (by decide)⟩,
    ⟨by decide,
      (project_identity_and_componentwise (fun _ d _ => d) (fun _ d _ => d)
        (FdFun.prim 0 7) (FdFun.prim 1 4) (FuncSpace.primal 0)
        (FuncSpace.primal 1) [] []).2.1 (by decide)⟩,
    ⟨by decide, by decide,
      by simpa using
        (project_identity_and_componentwise (fun _ d _ => d + 10)
          (fun _ d _ => d) (FdFun.prim 0 7) (FdFun.prim 1 4)
          (FuncSpace.primal 0) (FuncSpace.primal 1) [(0, 1), (1, 2)]
          [2, 3]).2.2 (by decide) (by decide)⟩⟩

/-! ## Cross-mesh projection, adjoint identity (interpolation.py lines 69-83)

On one (primal) component, discretised over the coefficient vectors of the
two spaces: `Mt` is the mass matrix of the target space, `Mm` the mixed
mass matrix from source to target (`assemble_mixed_mass_matrix`), both
over exact rationals in place of floating point.  The adjoint map is read
off the source: `ksp.setOperators(target_mass); ksp.solveTranspose(tb,
residual); mixed_mass.multTranspose(residual, sb)`, i.e. a solve with
`Mtᵀ` followed by multiplication by `Mmᵀ`. -/

open Matrix

/-- A computable matrix inverse over ℚ (`det⁻¹ • adjugate`), standing for
the linear solves performed by the KSP. -/
def matInv {n : Nat} (A : Matrix (Fin n) (Fin n) ℚ) : Matrix (Fin n) (Fin n) ℚ :=
  A.det⁻¹ • A.adjugate

theorem matInv_eq_inv {n : Nat} (A : Matrix (Fin n) (Fin n) ℚ) :
    matInv A = A⁻¹ := by
  rw [Matrix.inv_def, matInv, Ring.inverse_eq_inv]

/-- Modelled from the spec: the forward conservative projection
(`pyroteus.utility.project`, whose source is not in the repository
snapshot; spec section 4.3 — a conservative supermesh projection) solves
the target mass system against the mixed-mass image of the source:
`x ↦ Mt⁻¹ (Mm x)`. -/
def mesh2meshProjectMat {ns nt : Nat} (Mt : Matrix (Fin nt) (Fin nt) ℚ)
    (Mm : Matrix (Fin nt) (Fin ns) ℚ) (x : Fin ns → ℚ) : Fin nt → ℚ :=
  matInv Mt *ᵥ (Mm *ᵥ x)

/-- The per-component adjoint projection of interpolation.py lines 69-83:
solve the transposed target mass system against the seed, then apply the
transposed mixed mass operator: `y ↦ Mmᵀ ((Mtᵀ)⁻¹ y)`. -/
def mesh2meshProjectAdjointMat {ns nt : Nat} (Mt : Matrix (Fin nt) (Fin nt) ℚ)
    (Mm : Matrix (Fin nt) (Fin ns) ℚ) (y : Fin nt → ℚ) : Fin ns → ℚ :=
  Mmᵀ *ᵥ (matInv Mtᵀ *ᵥ y)

/-- C5: `mesh2mesh_project_adjoint` is the exact adjoint (transpose) of
`mesh2mesh_project` with respect to the coefficient-vector pairing: for
every nonsingular target mass matrix, every mixed mass matrix, and every
pair of vectors `x` (source side) and `y` (target side),
`⟨project x, y⟩ = ⟨x, project_adjoint y⟩` holds exactly over ℚ (the
floating-point statement holds to solver tolerance). -/
theorem project_adjoint_identity {ns nt : Nat}
    (Mt : Matrix (Fin nt) (Fin nt) ℚ) (Mm : Matrix (Fin nt) (Fin ns) ℚ)
    (x : Fin ns → ℚ) (y : Fin nt → ℚ) (hMt : IsUnit Mt.det) :
    dotProduct (mesh2meshProjectMat Mt Mm x) y
      = dotProduct x (mesh2meshProjectAdjointMat Mt Mm y) := by
  unfold mesh2meshProjectMat mesh2meshProjectAdjointMat
  rw [matInv_eq_inv, matInv_eq_inv]
  have hr : Mmᵀ *ᵥ ((Mtᵀ)⁻¹ *ᵥ y) = (y ᵥ* Mt⁻¹) ᵥ* Mm := by
    rw [← transpose_nonsing_inv, mulVec_transpose, mulVec_transpose]
  rw [hr]
  rw [dotProduct_comm x _, ← dotProduct_mulVec, ← dotProduct_mulVec]
  exact dotProduct_comm _ _

/-- Witness for `project_adjoint_identity` at concrete one-dimensional
matrices and vectors. -/
theorem project_adjoint_identity_witness :
    IsUnit (Matrix.det (1 : Matrix (Fin 1) (Fin 1) ℚ))
    ∧ dotProduct (mesh2meshProjectMat (1 : Matrix (Fin 1) (Fin 1) ℚ)
          ((Matrix.of fun _ _ => (2 : ℚ)) : Matrix (Fin 1) (Fin 1) ℚ)
          ((fun _ => 3) : Fin 1 → ℚ)) ((fun _ => 5) : Fin 1 → ℚ)
      = dotProduct ((fun _ => 3) : Fin 1 → ℚ)
          (mesh2meshProjectAdjointMat (1 : Matrix (Fin 1) (Fin 1) ℚ)
            ((Matrix.of fun _ _ => (2 : ℚ)) : Matrix (Fin 1) (Fin 1) ℚ)
            ((fun _ => 5) : Fin 1 → ℚ)) :=
  ⟨by simp,
    project_adjoint_identity (1 : Matrix (Fin 1) (Fin 1) ℚ)
      ((Matrix.of fun _ _ => (2 : ℚ)) : Matrix (Fin 1) (Fin 1) ℚ)
      ((fun _ => 3) : Fin 1 → ℚ) ((fun _ => 5) : Fin 1 → ℚ) (by simp)⟩

end Pyroteus
